import Mathlib

/-!
# CRUD handlers of `resource` (`src/resource/crud.go`)

A shallow embedding of the primary-key predicate builders
(`ToPrimaryQueryParams`, `ToPrimaryQueryParamsFromMetaValue`) and of the four
permission-gated handlers (`findOneHandler`, `findManyHandler`, `saveHandler`,
`deleteHandler`).

Conventions of the embedding:

* a Go `string` is a Lean `String`; a `[]string` (nil or empty) is a `List String`;
* a Go `error` is an `Option Error`, `none` being `nil`;
* a nilable `*MetaValues` is an `Option (MetaValues V)`;
* the ORM (`*gorm.DB`) is external: its answers are the fields of `DB`, a record
  of functions over an abstract store state `σ`; every call made on it is
  appended to the call log of the `World` that is threaded through the code.
-/

set_option autoImplicit false

namespace strings

/-- Pieces of a character list cut at every occurrence of `sep`; there is one more
piece than there are separators, as for Go's `strings.Split` with a one-byte
separator. -/
def splitChars (sep : Char) : List Char → List (List Char)
  | [] => [[]]
  | c :: cs =>
    if c = sep then [] :: splitChars sep cs
    else
      match splitChars sep cs with
      | [] => [[c]]
      | p :: ps => (c :: p) :: ps

/-- Go's `strings.Split(s, sep)` for a separator of one character (the code only
splits on `","`). Go cuts byte strings; on UTF-8 text and an ASCII separator the cuts by
byte and by character are the same. -/
def Split (s : String) (sep : Char) : List String :=
  (splitChars sep s.data).map String.mk

/-- Go's `strings.Join(elems, sep)`. -/
def Join : List String → String → String
  | [], _ => ""
  | [a], _ => a
  | a :: b :: rest, sep => a ++ sep ++ Join (b :: rest) sep

end strings

namespace resource

/-- The error values the handlers can return: the three sentinels named in the
source, a value built by `errors.New`, and any other error raised by the store. -/
inductive Error where
  /-- The sentinel `roles.ErrPermissionDenied`. -/
  | ErrPermissionDenied
  /-- The sentinel `ErrProcessorSkipLeft` of this package. -/
  | ErrProcessorSkipLeft
  /-- The sentinel `gorm.ErrRecordNotFound`. -/
  | ErrRecordNotFound
  /-- The value of `errors.New(text)`. -/
  | New (text : String)
  /-- Some other error raised by the database driver. -/
  | Driver (text : String)
  deriving DecidableEq, Repr

/-- The actions of `roles.PermissionMode` used by the handlers. -/
inductive PermissionMode where
  | Read
  | Update
  | Create
  | Delete
  deriving DecidableEq, Repr

/-- A primary-key field descriptor: logical name and database column name. -/
structure Field where
  Name : String
  DBName : String
  deriving DecidableEq, Repr

/-- What the code reads from a `*gorm.Scope` created for the resource's model. -/
structure Scope where
  /-- The result of `scope.QuotedTableName()`. -/
  QuotedTableName : String
  /-- The function `scope.Quote(column)`. -/
  Quote : String → String
  /-- The result of `scope.PrimaryField()`, `none` being `nil`. -/
  PrimaryField : Option Field

/-- One submitted field: `MetaValue.Name` and `MetaValue.Value`. -/
structure MetaValue (V : Type) where
  Name : String
  Value : V
  deriving DecidableEq, Repr

/-- Modelled from the spec: the type `MetaValues` and its method `Get` are declared
outside `crud.go`; the spec describes the meta-values source as a "mapping from field
name to submitted value, queryable by name". `Get name` is `none` when no field of that
name was submitted (Go `nil`). -/
structure MetaValues (V : Type) where
  Get : String → Option (MetaValue V)

/-- The two external printers applied to a submitted value: `utils.ToString` (used for
the query parameters) and `fmt.Sprint` (used to test the `_destroy` marker). -/
structure Printer (V : Type) where
  ToString : V → String
  Sprint : V → String

/-- A call made on the store. -/
inductive Call (R : Type) where
  /-- The call `NewScope(res.Value)`. -/
  | NewScopeOfValue
  /-- The call `NewScope(result)`. -/
  | NewScopeOfResult (result : R)
  /-- The call `First(result, args)`. -/
  | First (result : R) (args : List String)
  /-- The call `Delete(result, args)`. -/
  | Delete (result : R) (args : List String)
  /-- The call `Count(result)`. -/
  | Count (result : R)
  /-- The call `Set(key, value).Find(result)`. -/
  | Find (key value : String) (result : R)
  /-- The call `Save(result)`. -/
  | Save (result : R)
  deriving DecidableEq, Repr

/-- The behaviour of the database handle returned by `context.GetDB()`, over an
abstract store state `σ` and records `R`. Each operation returns the new store state and
the `.Error` of the resulting handle. -/
structure DB (σ R : Type) where
  /-- The scope obtained by `NewScope(res.Value)`. -/
  NewScope : Scope
  /-- The result of `NewScope(result).PrimaryKeyZero()`. -/
  PrimaryKeyZero : σ → R → Bool
  /-- The `ok` flag of `db.Get(name)`. -/
  Get : String → Bool
  First : σ → R → List String → σ × Option Error
  Delete : σ → R → List String → σ × Option Error
  Count : σ → R → σ × Option Error
  Find : σ → String → String → R → σ × Option Error
  Save : σ → R → σ × Option Error

/-- The request context: `context.ResourceID` and the handle of `context.GetDB()`. -/
structure Context (σ R : Type) where
  ResourceID : String
  DB : DB σ R

/-- The resource: its declared primary-key fields. Modelled from the spec:
`HasPermission` is a method declared outside `crud.go`; the spec describes the permission
checker as answering allow/deny for an action given a request context. -/
structure Resource (σ R : Type) where
  PrimaryFields : List Field
  HasPermission : PermissionMode → Context σ R → Bool

/-- The store state together with the log of the calls made on the store so far. -/
structure World (σ R : Type) where
  state : σ
  calls : List (Call R)

variable {σ R V : Type}

/-- Append a call to the log. -/
def World.record (w : World σ R) (c : Call R) : World σ R :=
  { w with calls := w.calls ++ [c] }

/-- Run a store operation: log the call, install the new state, return the error. -/
def World.run (w : World σ R) (c : Call R) (r : σ × Option Error) :
    Option Error × World σ R :=
  (r.2, { state := r.1, calls := w.calls ++ [c] })

/-- The value of `fmt.Sprintf("%v.%v = ?", table, column)` for two strings. -/
def Sprintf (table column : String) : String :=
  table ++ "." ++ column ++ " = ?"

/-- `Resource.ToPrimaryQueryParams` (crud.go, lines 15 to 43). -/
def ToPrimaryQueryParams (res : Resource σ R) (primaryValue : String)
    (context : Context σ R) (w : World σ R) : (String × List String) × World σ R :=
  if primaryValue ≠ "" then
    let scope := context.DB.NewScope
    let w := w.record Call.NewScopeOfValue
    let primaryValues := strings.Split primaryValue ','
    -- multiple primary fields
    if res.PrimaryFields.length > 1 ∧ primaryValues.length = res.PrimaryFields.length then
      let sqls := res.PrimaryFields.foldl
        (fun sqls field => sqls ++ [Sprintf scope.QuotedTableName (scope.Quote field.DBName)]) []
      ((strings.Join sqls " AND ", primaryValues), w)
    else
      match res.PrimaryFields with
      -- fallback to first configured primary field
      | first :: _ =>
        ((Sprintf scope.QuotedTableName (scope.Quote first.DBName), [primaryValue]), w)
      -- if no configured primary fields found
      | [] =>
        match scope.PrimaryField with
        | some primaryField =>
          ((Sprintf scope.QuotedTableName (scope.Quote primaryField.DBName), [primaryValue]), w)
        | none => (("", []), w)
  else (("", []), w)

/-- `Resource.ToPrimaryQueryParamsFromMetaValue` (crud.go, lines 46 to 62). The pair
threaded through the loop is `(sqls, primaryValues)`. -/
def ToPrimaryQueryParamsFromMetaValue (pr : Printer V) (res : Resource σ R)
    (metaValues : Option (MetaValues V)) (context : Context σ R) (w : World σ R) :
    (String × List String) × World σ R :=
  let scope := context.DB.NewScope
  let w := w.record Call.NewScopeOfValue
  let acc : List String × List String :=
    match metaValues with
    | some mvs =>
      res.PrimaryFields.foldl
        (fun acc field =>
          match mvs.Get field.Name with
          | some metaField =>
            (acc.1 ++ [Sprintf scope.QuotedTableName (scope.Quote field.DBName)],
             acc.2 ++ [pr.ToString metaField.Value])
          | none => acc)
        ([], [])
    | none => ([], [])
  ((strings.Join acc.1 " AND ", acc.2), w)

/-- `Resource.findOneHandler` (crud.go, lines 64 to 92). -/
def findOneHandler (pr : Printer V) (res : Resource σ R) (result : R)
    (metaValues : Option (MetaValues V)) (context : Context σ R) (w : World σ R) :
    Option Error × World σ R :=
  if res.HasPermission PermissionMode.Read context then
    let q : (String × List String) × World σ R :=
      match metaValues with
      | none => ToPrimaryQueryParams res context.ResourceID context w
      | some _ => ToPrimaryQueryParamsFromMetaValue pr res metaValues context w
    let primaryQuerySQL := q.1.1
    let primaryParams := q.1.2
    let w := q.2
    if primaryQuerySQL ≠ "" then
      let args := primaryQuerySQL :: primaryParams
      let fetch : Option Error × World σ R :=
        w.run (Call.First result args) (context.DB.First w.state result args)
      match metaValues with
      | some mvs =>
        match mvs.Get "_destroy" with
        | some destroy =>
          if pr.Sprint destroy.Value ≠ "0" ∧ res.HasPermission PermissionMode.Delete context then
            let d := w.run (Call.Delete result args) (context.DB.Delete w.state result args)
            (some Error.ErrProcessorSkipLeft, d.2)
          else fetch
        | none => fetch
      | none => fetch
    else (some (Error.New "failed to find"), w)
  else (some Error.ErrPermissionDenied, w)

/-- `Resource.findManyHandler` (crud.go, lines 94 to 104). -/
def findManyHandler (res : Resource σ R) (result : R) (context : Context σ R)
    (w : World σ R) : Option Error × World σ R :=
  if res.HasPermission PermissionMode.Read context then
    if context.DB.Get "qor:getting_total_count" then
      w.run (Call.Count result) (context.DB.Count w.state result)
    else
      w.run (Call.Find "gorm:order_by_primary_key" "DESC" result)
        (context.DB.Find w.state "gorm:order_by_primary_key" "DESC" result)
  else (some Error.ErrPermissionDenied, w)

/-- `Resource.saveHandler` (crud.go, lines 106 to 113). The scope of `result` is
always created; `&&` and `||` are Go's short-circuit operators on pure tests. -/
def saveHandler (res : Resource σ R) (result : R) (context : Context σ R)
    (w : World σ R) : Option Error × World σ R :=
  let w := w.record (Call.NewScopeOfResult result)
  if (context.DB.PrimaryKeyZero w.state result && res.HasPermission PermissionMode.Create context)
      || res.HasPermission PermissionMode.Update context then
    w.run (Call.Save result) (context.DB.Save w.state result)
  else (some Error.ErrPermissionDenied, w)

/-- `Resource.deleteHandler` (crud.go, lines 115 to 120). -/
def deleteHandler (res : Resource σ R) (_result : R) (context : Context σ R)
    (w : World σ R) : Option Error × World σ R :=
  if res.HasPermission PermissionMode.Delete context then
    (some Error.ErrRecordNotFound, w)
  else (some Error.ErrPermissionDenied, w)

end resource

/-! ## Example data used to instantiate the theorems -/

namespace resource

/-- A scope quoting identifiers with square brackets, on table `users`. -/
def exScope : Scope :=
  { QuotedTableName := "[users]", Quote := fun c => "[" ++ c ++ "]", PrimaryField := none }

/-- A store over a counter state: `First` finds nothing, `Delete` fails with a driver
error, `Save` succeeds; a record is the value of its primary key. -/
def exDB : DB Nat Nat :=
  { NewScope := exScope
    PrimaryKeyZero := fun _ r => r == 0
    Get := fun _ => false
    First := fun s _ _ => (s, some Error.ErrRecordNotFound)
    Delete := fun s _ _ => (s + 1, some (Error.Driver "locked"))
    Count := fun s _ => (s, none)
    Find := fun s _ _ _ => (s, none)
    Save := fun s _ => (s + 1, none) }

/-- A store whose `First` reports the value `ErrProcessorSkipLeft` as its error (an error
value is any value of the interface, and the callbacks of the store may set any). -/
def exSkipDB : DB Nat Nat :=
  { NewScope := exScope
    PrimaryKeyZero := fun _ r => r == 0
    Get := fun _ => false
    First := fun s _ _ => (s, some Error.ErrProcessorSkipLeft)
    Delete := fun s _ _ => (s + 1, none)
    Count := fun s _ => (s, none)
    Find := fun s _ _ _ => (s, none)
    Save := fun s _ => (s + 1, none) }

/-- A request served by the store `exSkipDB`. -/
def exSkipContext : Context Nat Nat := { ResourceID := "1", DB := exSkipDB }

/-- A request for the resource identifier `1,2`. -/
def exContext : Context Nat Nat := { ResourceID := "1,2", DB := exDB }

/-- A resource with the composite key `(id, code)`, every action allowed. -/
def exComposite : Resource Nat Nat :=
  { PrimaryFields := [⟨"ID", "id"⟩, ⟨"Code", "code"⟩], HasPermission := fun _ _ => true }

/-- A resource with the single key `id`, every action allowed. -/
def exSingle : Resource Nat Nat :=
  { PrimaryFields := [⟨"ID", "id"⟩], HasPermission := fun _ _ => true }

/-- A resource with the single key `id` on which reading is denied. -/
def exNoRead : Resource Nat Nat :=
  { PrimaryFields := [⟨"ID", "id"⟩], HasPermission := fun m _ => decide (m ≠ PermissionMode.Read) }

/-- A resource with the single key `id` whose role may update but not create. -/
def exUpdateOnly : Resource Nat Nat :=
  { PrimaryFields := [⟨"ID", "id"⟩], HasPermission := fun m _ => decide (m = PermissionMode.Update) }

/-- A resource with the single key `id` whose role may create but not update. -/
def exCreateOnly : Resource Nat Nat :=
  { PrimaryFields := [⟨"ID", "id"⟩], HasPermission := fun m _ => decide (m = PermissionMode.Create) }

/-- The initial world: store state `0`, nothing called yet. -/
def exWorld : World Nat Nat := ⟨0, []⟩

/-- Submitted values are strings, printed as they are. -/
def exPrinter : Printer String := ⟨id, id⟩

/-- Meta-values built from a list of name/value pairs. -/
def exMeta (pairs : List (String × String)) : MetaValues String :=
  ⟨fun name => (pairs.lookup name).map (fun v => ⟨name, v⟩)⟩

end resource

/-! ## The string helpers -/

namespace strings

theorem splitChars_ne_nil (sep : Char) (cs : List Char) : splitChars sep cs ≠ [] := by
  induction cs with
  | nil => simp [splitChars]
  | cons c cs ih =>
    unfold splitChars
    split
    · simp
    · split
      · simp
      · simp

/-- A split has one more piece than the text has separators. -/
theorem splitChars_length (sep : Char) (cs : List Char) :
    (splitChars sep cs).length = cs.count sep + 1 := by
  induction cs with
  | nil => simp [splitChars]
  | cons c cs ih =>
    unfold splitChars
    by_cases h : c = sep
    · subst h
      simp [ih]
    · have hne : splitChars sep cs ≠ [] := splitChars_ne_nil sep cs
      rw [if_neg h]
      cases hs : splitChars sep cs with
      | nil => exact absurd hs hne
      | cons p ps =>
        rw [hs] at ih
        simp only [List.length_cons] at ih ⊢
        rw [List.count_cons_of_ne (Ne.symm h)]
        exact ih

/-- The number of parts of `Split s sep` is the number of separators of `s` plus one. -/
theorem Split_length (s : String) (sep : Char) :
    (Split s sep).length = s.data.count sep + 1 := by
  simp [Split, splitChars_length]

/-- No piece of a split holds the separator. -/
theorem splitChars_no_sep (sep : Char) (cs : List Char) :
    ∀ p ∈ splitChars sep cs, sep ∉ p := by
  induction cs with
  | nil => simp [splitChars]
  | cons c cs ih =>
    unfold splitChars
    by_cases h : c = sep
    · rw [if_pos h]
      intro p hp
      rcases List.mem_cons.mp hp with rfl | hp
      · simp
      · exact ih p hp
    · rw [if_neg h]
      cases hs : splitChars sep cs with
      | nil => exact absurd hs (splitChars_ne_nil sep cs)
      | cons q qs =>
        rw [hs] at ih
        intro p hp
        rcases List.mem_cons.mp hp with rfl | hp
        · have hq := ih q (List.mem_cons_self q qs)
          intro hmem
          rcases List.mem_cons.mp hmem with heq | hmem
          · exact h heq.symm
          · exact hq hmem
        · exact ih p (List.mem_cons_of_mem q hp)

/-- Joining the pieces of a split with the separator gives the text back. -/
theorem Join_splitChars (sep : Char) (cs : List Char) :
    Join ((splitChars sep cs).map String.mk) (String.mk [sep]) = String.mk cs := by
  induction cs with
  | nil => simp [splitChars, Join]
  | cons c cs ih =>
    unfold splitChars
    by_cases h : c = sep
    · rw [if_pos h]
      cases hs : splitChars sep cs with
      | nil => exact absurd hs (splitChars_ne_nil sep cs)
      | cons q qs =>
        rw [hs] at ih
        simp only [List.map_cons] at ih ⊢
        simp only [Join]
        rw [ih]
        apply String.ext
        simp [String.data_append, h]
    · rw [if_neg h]
      cases hs : splitChars sep cs with
      | nil => exact absurd hs (splitChars_ne_nil sep cs)
      | cons q qs =>
        rw [hs] at ih
        cases qs with
        | nil =>
          simp only [List.map_cons, List.map_nil, Join] at ih ⊢
          have hq : q = cs := by
            have := congrArg String.data ih
            simpa using this
          rw [hq]
        | cons r rs =>
          simp only [List.map_cons, Join] at ih ⊢
          have hd := congrArg String.data ih
          simp only [String.data_append] at hd
          apply String.ext
          simp only [String.data_append, List.cons_append]
          rw [hd]

/-- Go's round trip: `strings.Join(strings.Split(s, sep), sep) == s`. -/
theorem Join_Split (s : String) (sep : Char) :
    Join (Split s sep) (String.mk [sep]) = s := by
  unfold Split
  rw [Join_splitChars]

/-- Joining with a non-empty first element gives a non-empty string. -/
theorem Join_ne_empty (a : String) (rest : List String) (sep : String) (ha : a ≠ "") :
    Join (a :: rest) sep ≠ "" := by
  have hlen : 0 < a.length := by
    rcases a with ⟨l⟩
    cases l with
    | nil => exact absurd rfl ha
    | cons c l => simp [String.length]
  cases rest with
  | nil => simpa [Join] using ha
  | cons b rest =>
    intro h
    have h2 := congrArg String.length h
    simp [Join, String.length_append] at h2
    omega

end strings

/-! ## The primary-key predicate builders -/

namespace resource

variable {σ R V : Type}

/-- A loop appending one computed element per item builds the mapped list. -/
theorem foldl_append_map {α β : Type} (g : α → β) (l : List α) (init : List β) :
    l.foldl (fun acc a => acc ++ [g a]) init = init ++ l.map g := by
  induction l generalizing init with
  | nil => simp
  | cons a l ih => simp [ih]

/-- The loop of `ToPrimaryQueryParamsFromMetaValue` keeps, in order, the items for which
the lookup succeeds: clauses on the left, printed values on the right. -/
theorem foldl_present {α β γ : Type} (get : α → Option (MetaValue V)) (g : α → β)
    (h : MetaValue V → γ)
    (l : List α) (init : List β × List γ) :
    l.foldl
        (fun acc a =>
          match get a with
          | some m => (acc.1 ++ [g a], acc.2 ++ [h m])
          | none => acc)
        init
      = (init.1 ++ (l.filter (fun a => (get a).isSome)).map g,
         init.2 ++ l.filterMap (fun a => (get a).map h)) := by
  induction l generalizing init with
  | nil => simp
  | cons a l ih =>
    simp only [List.foldl_cons]
    rw [ih]
    cases hg : get a with
    | none => simp [hg]
    | some m => simp [hg]

/-- The clause of a field is never the empty string. -/
theorem Sprintf_ne_empty (table column : String) : Sprintf table column ≠ "" := by
  intro h
  have h2 := congrArg String.length h
  simp only [Sprintf, String.length_append] at h2
  have h3 : " = ?".length = 4 := by decide
  have h4 : "".length = 0 := by decide
  omega

/-- The parameters of `ToPrimaryQueryParamsFromMetaValue` line up with the declared
fields that are present in the meta-values. -/
theorem forall₂_present {α γ M : Type} (get : α → Option M) (h : M → γ) (l : List α) :
    List.Forall₂ (fun a p => ∃ m, get a = some m ∧ p = h m)
      (l.filter (fun a => (get a).isSome)) (l.filterMap (fun a => (get a).map h)) := by
  induction l with
  | nil => simp
  | cons a l ih =>
    cases hg : get a with
    | none => simpa [List.filter_cons, List.filterMap_cons, hg] using ih
    | some m =>
      simp only [List.filter_cons, List.filterMap_cons, hg, Option.isSome_some, if_true,
        Option.map_some']
      exact List.Forall₂.cons ⟨m, hg, rfl⟩ ih

/-- C1: for a resource with n > 1 declared primary-key fields and a non-empty
primaryValue that splits on "," into exactly n parts, `ToPrimaryQueryParams` returns the
clauses "<quoted table>.<quoted column> = ?" of the declared fields, in declared order,
joined by " AND ", and as parameters exactly the split parts in their order. -/
theorem ToPrimaryQueryParams_composite (res : Resource σ R) (primaryValue : String)
    (context : Context σ R) (w : World σ R)
    (hn : 1 < res.PrimaryFields.length) (hne : primaryValue ≠ "")
    (hsplit : (strings.Split primaryValue ',').length = res.PrimaryFields.length) :
    (ToPrimaryQueryParams res primaryValue context w).1 =
      (strings.Join
          (res.PrimaryFields.map (fun field =>
            context.DB.NewScope.QuotedTableName ++ "." ++
              context.DB.NewScope.Quote field.DBName ++ " = ?"))
          " AND ",
        strings.Split primaryValue ',') := by
  unfold ToPrimaryQueryParams
  simp only [if_pos hne]
  rw [if_pos ⟨hn, hsplit⟩, foldl_append_map]
  simp [Sprintf]

/-- The two-field example of C1: input "1,2" on the key (id, code) gives the two clauses
in declared order and the parameters ["1", "2"]. -/
theorem ToPrimaryQueryParams_composite_witness :
    (ToPrimaryQueryParams exComposite "1,2" exContext exWorld).1 =
        ("[users].[id] = ? AND [users].[code] = ?", ["1", "2"])
      ∧ (ToPrimaryQueryParams exComposite "1,2" exContext exWorld).1 =
        (strings.Join
            (exComposite.PrimaryFields.map (fun field =>
              exContext.DB.NewScope.QuotedTableName ++ "." ++
                exContext.DB.NewScope.Quote field.DBName ++ " = ?"))
            " AND ",
          strings.Split "1,2" ',') :=
  ⟨by decide,
   ToPrimaryQueryParams_composite exComposite "1,2" exContext exWorld
     (by decide) (by decide) (by decide)⟩

/-- C6: for a resource with at least one declared primary-key field and a non-empty
primaryValue outside the composite case (exactly one primary field, or a value that does
not split on "," into as many parts as there are primary fields), `ToPrimaryQueryParams`
returns the single clause of the first declared field and the one-element parameter list
holding the whole, unsplit value. -/
theorem ToPrimaryQueryParams_first_field (res : Resource σ R) (primaryValue : String)
    (context : Context σ R) (w : World σ R)
    (hpos : 0 < res.PrimaryFields.length) (hne : primaryValue ≠ "")
    (hcase : res.PrimaryFields.length = 1 ∨
      (strings.Split primaryValue ',').length ≠ res.PrimaryFields.length) :
    (ToPrimaryQueryParams res primaryValue context w).1 =
      (context.DB.NewScope.QuotedTableName ++ "." ++
          context.DB.NewScope.Quote (res.PrimaryFields[0]).DBName ++ " = ?",
        [primaryValue]) := by
  have hnot : ¬ (res.PrimaryFields.length > 1 ∧
      (strings.Split primaryValue ',').length = res.PrimaryFields.length) := by
    rintro ⟨h1, h2⟩
    rcases hcase with h | h
    · omega
    · exact h h2
  obtain ⟨fields, perm⟩ := res
  cases fields with
  | nil => simp at hpos
  | cons first rest =>
    unfold ToPrimaryQueryParams
    simp only [if_pos hne]
    rw [if_neg hnot]
    simp [Sprintf]

/-- The one-field example of C6: input "5" gives one clause and the parameter ["5"];
the theorem applied to the key `id`. -/
theorem ToPrimaryQueryParams_first_field_witness :
    (ToPrimaryQueryParams exSingle "5" exContext exWorld).1 = ("[users].[id] = ?", ["5"])
      ∧ (ToPrimaryQueryParams exComposite "5" exContext exWorld).1 =
        ("[users].[id] = ?", ["5"])
      ∧ (ToPrimaryQueryParams exSingle "5,6" exContext exWorld).1 =
        (exContext.DB.NewScope.QuotedTableName ++ "." ++
            exContext.DB.NewScope.Quote
              ((exSingle.PrimaryFields.get ⟨0, by decide⟩)).DBName ++ " = ?",
          ["5,6"]) :=
  ⟨by decide, by decide,
   ToPrimaryQueryParams_first_field exSingle "5,6" exContext exWorld
     (by decide) (by decide) (Or.inl (by decide))⟩

/-- The value of `ToPrimaryQueryParamsFromMetaValue` on non-nil meta-values: the clauses of
the declared fields found in the meta-values, the printed values of those fields, and one
scope creation logged. -/
theorem ToPrimaryQueryParamsFromMetaValue_eq (pr : Printer V) (res : Resource σ R)
    (mvs : MetaValues V) (context : Context σ R) (w : World σ R) :
    ToPrimaryQueryParamsFromMetaValue pr res (some mvs) context w =
      ((strings.Join
          ((res.PrimaryFields.filter (fun field => (mvs.Get field.Name).isSome)).map
            (fun field => Sprintf context.DB.NewScope.QuotedTableName
              (context.DB.NewScope.Quote field.DBName)))
          " AND ",
        res.PrimaryFields.filterMap
          (fun field => (mvs.Get field.Name).map (fun m => pr.ToString m.Value))),
       w.record Call.NewScopeOfValue) := by
  have h := foldl_present (fun field : Field => mvs.Get field.Name)
    (fun field => Sprintf context.DB.NewScope.QuotedTableName
      (context.DB.NewScope.Quote field.DBName))
    (fun m => pr.ToString m.Value) res.PrimaryFields ([], [])
  simp only [List.nil_append] at h
  unfold ToPrimaryQueryParamsFromMetaValue
  simp only []
  rw [h]

/-- When a declared primary-key field is present in the meta-values, the predicate built
from them is not the empty string. -/
theorem ToPrimaryQueryParamsFromMetaValue_sql_ne_empty (pr : Printer V) (res : Resource σ R)
    (mvs : MetaValues V) (context : Context σ R) (w : World σ R) (field : Field)
    (m : MetaValue V) (hfield : field ∈ res.PrimaryFields) (hm : mvs.Get field.Name = some m) :
    (ToPrimaryQueryParamsFromMetaValue pr res (some mvs) context w).1.1 ≠ "" := by
  rw [ToPrimaryQueryParamsFromMetaValue_eq]
  have hmem : field ∈ res.PrimaryFields.filter (fun field => (mvs.Get field.Name).isSome) := by
    simp [List.mem_filter, hfield, hm]
  cases hl : res.PrimaryFields.filter (fun field => (mvs.Get field.Name).isSome) with
  | nil => simp [hl] at hmem
  | cons a rest =>
    simp only [List.map_cons]
    exact strings.Join_ne_empty _ _ _ (Sprintf_ne_empty _ _)

/-- C8: on non-nil meta-values `ToPrimaryQueryParamsFromMetaValue` returns the clauses of
exactly the declared primary-key fields whose name is present in the meta-values, in
declared order, joined by " AND "; the parameters line up with those fields, each being
the string form of the field's submitted value; when no declared field is present, and
when the meta-values are nil, the predicate is empty and there are no parameters. -/
theorem ToPrimaryQueryParamsFromMetaValue_present (pr : Printer V) (res : Resource σ R)
    (mvs : MetaValues V) (context : Context σ R) (w : World σ R) :
    (ToPrimaryQueryParamsFromMetaValue pr res (some mvs) context w).1.1 =
        strings.Join
          ((res.PrimaryFields.filter (fun field => (mvs.Get field.Name).isSome)).map
            (fun field => context.DB.NewScope.QuotedTableName ++ "." ++
              context.DB.NewScope.Quote field.DBName ++ " = ?"))
          " AND "
      ∧ List.Forall₂
          (fun field p => ∃ m, mvs.Get field.Name = some m ∧ p = pr.ToString m.Value)
          (res.PrimaryFields.filter (fun field => (mvs.Get field.Name).isSome))
          (ToPrimaryQueryParamsFromMetaValue pr res (some mvs) context w).1.2
      ∧ ((∀ field ∈ res.PrimaryFields, mvs.Get field.Name = none) →
          (ToPrimaryQueryParamsFromMetaValue pr res (some mvs) context w).1 = ("", []))
      ∧ (ToPrimaryQueryParamsFromMetaValue pr res none context w).1 = ("", []) := by
  rw [ToPrimaryQueryParamsFromMetaValue_eq]
  refine ⟨by simp [Sprintf], forall₂_present _ _ _, ?_, ?_⟩
  · intro hnone
    have h1 : res.PrimaryFields.filter (fun field => (mvs.Get field.Name).isSome) = [] := by
      rw [List.filter_eq_nil_iff]
      intro field hfield
      simp [hnone field hfield]
    have h2 : res.PrimaryFields.filterMap
        (fun field => (mvs.Get field.Name).map (fun m => pr.ToString m.Value)) = [] := by
      rw [List.filterMap_eq_nil_iff]
      intro field hfield
      simp [hnone field hfield]
    simp [h1, h2, strings.Join]
  · simp [ToPrimaryQueryParamsFromMetaValue, strings.Join]

/-- The theorem of C8 on the composite key (id, code) with only `Code` submitted: the
one clause of `code` and its value; and with no key field submitted: nothing. -/
theorem ToPrimaryQueryParamsFromMetaValue_present_witness :
    (ToPrimaryQueryParamsFromMetaValue exPrinter exComposite
        (some (exMeta [("Name", "x"), ("Code", "9")])) exContext exWorld).1 =
        ("[users].[code] = ?", ["9"])
      ∧ (ToPrimaryQueryParamsFromMetaValue exPrinter exComposite
        (some (exMeta [("Code", "9"), ("ID", "4")])) exContext exWorld).1 =
        ("[users].[id] = ? AND [users].[code] = ?", ["4", "9"])
      ∧ (ToPrimaryQueryParamsFromMetaValue exPrinter exComposite
        (some (exMeta [("_destroy", "1")])) exContext exWorld).1 = ("", []) :=
  ⟨by decide, by decide,
   (ToPrimaryQueryParamsFromMetaValue_present exPrinter exComposite
      (exMeta [("_destroy", "1")]) exContext exWorld).2.2.1 (by decide)⟩

/-- C7: whatever the declared primary-key fields, `ToPrimaryQueryParams` called with the
empty string returns the empty predicate and the empty parameter list (and calls nothing
on the store). -/
theorem ToPrimaryQueryParams_empty (res : Resource σ R) (context : Context σ R)
    (w : World σ R) :
    ToPrimaryQueryParams res "" context w = (("", []), w) := by
  simp [ToPrimaryQueryParams]

end resource

/-! ## The handlers -/

namespace resource

variable {σ R V : Type}

/-- The value of `findOneHandler` when reading is allowed, the meta-values are non-nil and
hold a declared primary-key field: the `_destroy` marker decides between one `Delete`
(answering the skip sentinel, the delete's own error being dropped) and one `First`
(answering the fetch's error), both on the predicate built from the meta-values. -/
theorem findOneHandler_meta_eq (pr : Printer V) (res : Resource σ R) (result : R)
    (mvs : MetaValues V) (context : Context σ R) (w : World σ R) (field : Field)
    (m : MetaValue V)
    (hread : res.HasPermission PermissionMode.Read context = true)
    (hfield : field ∈ res.PrimaryFields) (hm : mvs.Get field.Name = some m) :
    findOneHandler pr res result (some mvs) context w =
      (match mvs.Get "_destroy" with
       | some destroy =>
         if pr.Sprint destroy.Value ≠ "0" ∧ res.HasPermission PermissionMode.Delete context then
           (some Error.ErrProcessorSkipLeft,
            { state := (context.DB.Delete w.state result
                ((ToPrimaryQueryParamsFromMetaValue pr res (some mvs) context w).1.1 ::
                  (ToPrimaryQueryParamsFromMetaValue pr res (some mvs) context w).1.2)).1
              calls := w.calls ++ [Call.NewScopeOfValue, Call.Delete result
                ((ToPrimaryQueryParamsFromMetaValue pr res (some mvs) context w).1.1 ::
                  (ToPrimaryQueryParamsFromMetaValue pr res (some mvs) context w).1.2)] })
         else
           ((context.DB.First w.state result
                ((ToPrimaryQueryParamsFromMetaValue pr res (some mvs) context w).1.1 ::
                  (ToPrimaryQueryParamsFromMetaValue pr res (some mvs) context w).1.2)).2,
            { state := (context.DB.First w.state result
                ((ToPrimaryQueryParamsFromMetaValue pr res (some mvs) context w).1.1 ::
                  (ToPrimaryQueryParamsFromMetaValue pr res (some mvs) context w).1.2)).1
              calls := w.calls ++ [Call.NewScopeOfValue, Call.First result
                ((ToPrimaryQueryParamsFromMetaValue pr res (some mvs) context w).1.1 ::
                  (ToPrimaryQueryParamsFromMetaValue pr res (some mvs) context w).1.2)] })
       | none =>
         ((context.DB.First w.state result
              ((ToPrimaryQueryParamsFromMetaValue pr res (some mvs) context w).1.1 ::
                (ToPrimaryQueryParamsFromMetaValue pr res (some mvs) context w).1.2)).2,
          { state := (context.DB.First w.state result
              ((ToPrimaryQueryParamsFromMetaValue pr res (some mvs) context w).1.1 ::
                (ToPrimaryQueryParamsFromMetaValue pr res (some mvs) context w).1.2)).1
            calls := w.calls ++ [Call.NewScopeOfValue, Call.First result
              ((ToPrimaryQueryParamsFromMetaValue pr res (some mvs) context w).1.1 ::
                (ToPrimaryQueryParamsFromMetaValue pr res (some mvs) context w).1.2)] })) := by
  have hsql := ToPrimaryQueryParamsFromMetaValue_sql_ne_empty pr res mvs context w field m
    hfield hm
  have hw : (ToPrimaryQueryParamsFromMetaValue pr res (some mvs) context w).2 =
      w.record Call.NewScopeOfValue := by
    rw [ToPrimaryQueryParamsFromMetaValue_eq]
  unfold findOneHandler
  simp only [hread, if_true, if_pos hsql, hw, World.run, World.record, List.append_assoc,
    List.singleton_append]

/-- C5: when read permission is denied, `findOneHandler` returns
`roles.ErrPermissionDenied` and leaves the world as it was: no call on the store (no scope
creation, no `First`, no `Delete`) and no change of its state, whatever the delete
permission and the meta-values. -/
theorem findOneHandler_read_denied (pr : Printer V) (res : Resource σ R) (result : R)
    (metaValues : Option (MetaValues V)) (context : Context σ R) (w : World σ R)
    (hread : res.HasPermission PermissionMode.Read context = false) :
    findOneHandler pr res result metaValues context w =
      (some Error.ErrPermissionDenied, w) := by
  simp [findOneHandler, hread]

/-- The theorem of C5 on a resource that denies reading and allows deleting, with
meta-values holding the key and a destroy marker. -/
theorem findOneHandler_read_denied_witness :
    exNoRead.HasPermission PermissionMode.Read exContext = false
      ∧ exNoRead.HasPermission PermissionMode.Delete exContext = true
      ∧ findOneHandler exPrinter exNoRead 5
          (some (exMeta [("ID", "7"), ("_destroy", "1")])) exContext exWorld =
        (some Error.ErrPermissionDenied, exWorld) :=
  ⟨by decide, by decide,
   findOneHandler_read_denied exPrinter exNoRead 5
     (some (exMeta [("ID", "7"), ("_destroy", "1")])) exContext exWorld (by decide)⟩

/-- C10, as amended: with read permission granted and meta-values holding at least one
declared primary-key field and a "_destroy" field whose value prints as "0",
`findOneHandler` deletes nothing, whatever the delete permission: after the scope creation
its only store call is `First` on the predicate built from the meta-values followed by its
parameters, and it returns the error of that fetch; it returns `ErrProcessorSkipLeft`
exactly when the fetch itself yields that value. -/
theorem findOneHandler_destroy_zero (pr : Printer V) (res : Resource σ R) (result : R)
    (mvs : MetaValues V) (context : Context σ R) (w : World σ R) (field : Field)
    (m destroy : MetaValue V)
    (hread : res.HasPermission PermissionMode.Read context = true)
    (hfield : field ∈ res.PrimaryFields) (hm : mvs.Get field.Name = some m)
    (hd : mvs.Get "_destroy" = some destroy) (hzero : pr.Sprint destroy.Value = "0") :
    findOneHandler pr res result (some mvs) context w =
        ((context.DB.First w.state result
            ((ToPrimaryQueryParamsFromMetaValue pr res (some mvs) context w).1.1 ::
              (ToPrimaryQueryParamsFromMetaValue pr res (some mvs) context w).1.2)).2,
         { state := (context.DB.First w.state result
            ((ToPrimaryQueryParamsFromMetaValue pr res (some mvs) context w).1.1 ::
              (ToPrimaryQueryParamsFromMetaValue pr res (some mvs) context w).1.2)).1
           calls := w.calls ++ [Call.NewScopeOfValue, Call.First result
            ((ToPrimaryQueryParamsFromMetaValue pr res (some mvs) context w).1.1 ::
              (ToPrimaryQueryParamsFromMetaValue pr res (some mvs) context w).1.2)] })
      ∧ (∀ r args, Call.Delete r args ∉
          (findOneHandler pr res result (some mvs) context w).2.calls.drop w.calls.length)
      ∧ ((findOneHandler pr res result (some mvs) context w).1
            = some Error.ErrProcessorSkipLeft ↔
          (context.DB.First w.state result
            ((ToPrimaryQueryParamsFromMetaValue pr res (some mvs) context w).1.1 ::
              (ToPrimaryQueryParamsFromMetaValue pr res (some mvs) context w).1.2)).2
            = some Error.ErrProcessorSkipLeft) := by
  have h := findOneHandler_meta_eq pr res result mvs context w field m hread hfield hm
  simp only [hd, hzero, ne_eq, not_true_eq_false, false_and, if_false] at h
  refine ⟨h, ?_, ?_⟩
  · intro r args
    rw [h]
    simp
  · rw [h]

/-- The amended C10 on the key `id` with delete permission granted: marker "0" leads to
the fetch, whose not-found error is returned. -/
theorem findOneHandler_destroy_zero_witness :
    findOneHandler exPrinter exSingle 5
        (some (exMeta [("ID", "7"), ("_destroy", "0")])) exContext exWorld =
      (some Error.ErrRecordNotFound,
       { state := 0
         calls := [Call.NewScopeOfValue, Call.First 5 ["[users].[id] = ?", "7"]] }) :=
  (findOneHandler_destroy_zero exPrinter exSingle 5
    (exMeta [("ID", "7"), ("_destroy", "0")]) exContext exWorld ⟨"ID", "id"⟩
    ⟨"ID", "7"⟩ ⟨"_destroy", "0"⟩ (by decide) (by decide) (by decide) (by decide)
    (by decide)).1

/-- C10 as stated fails: read is granted and the meta-values hold the key field and
"_destroy" = "0", so `findOneHandler` fetches and deletes nothing; but the store's `First`
yields the value `ErrProcessorSkipLeft` as its error, and the handler, returning the
fetch's error unchanged, returns `ErrProcessorSkipLeft`. -/
theorem findOneHandler_destroy_zero_returns_fetched_sentinel :
    exSingle.HasPermission PermissionMode.Read exSkipContext = true
      ∧ (⟨"ID", "id"⟩ : Field) ∈ exSingle.PrimaryFields
      ∧ (exMeta [("ID", "7"), ("_destroy", "0")]).Get "ID" = some ⟨"ID", "7"⟩
      ∧ (exMeta [("ID", "7"), ("_destroy", "0")]).Get "_destroy" = some ⟨"_destroy", "0"⟩
      ∧ exPrinter.Sprint "0" = "0"
      ∧ (exSkipContext.DB.First exWorld.state 5 ["[users].[id] = ?", "7"]).2 =
          some Error.ErrProcessorSkipLeft
      ∧ (findOneHandler exPrinter exSingle 5
          (some (exMeta [("ID", "7"), ("_destroy", "0")])) exSkipContext exWorld).2.calls =
          [Call.NewScopeOfValue, Call.First 5 ["[users].[id] = ?", "7"]]
      ∧ (findOneHandler exPrinter exSingle 5
          (some (exMeta [("ID", "7"), ("_destroy", "0")])) exSkipContext exWorld).1 =
          some Error.ErrProcessorSkipLeft := by
  decide

/-- C3, as amended: with read and delete permission granted and meta-values holding at
least one declared primary-key field and a "_destroy" field whose value prints as something
other than "0", `findOneHandler` performs one store `Delete` on the predicate built from
the meta-values, performs no `First`, and returns `ErrProcessorSkipLeft`. -/
theorem findOneHandler_destroy_deletes (pr : Printer V) (res : Resource σ R) (result : R)
    (mvs : MetaValues V) (context : Context σ R) (w : World σ R) (field : Field)
    (m destroy : MetaValue V)
    (hread : res.HasPermission PermissionMode.Read context = true)
    (hdelete : res.HasPermission PermissionMode.Delete context = true)
    (hfield : field ∈ res.PrimaryFields) (hm : mvs.Get field.Name = some m)
    (hd : mvs.Get "_destroy" = some destroy) (hmark : pr.Sprint destroy.Value ≠ "0") :
    findOneHandler pr res result (some mvs) context w =
      (some Error.ErrProcessorSkipLeft,
       { state := (context.DB.Delete w.state result
            ((ToPrimaryQueryParamsFromMetaValue pr res (some mvs) context w).1.1 ::
              (ToPrimaryQueryParamsFromMetaValue pr res (some mvs) context w).1.2)).1
         calls := w.calls ++ [Call.NewScopeOfValue, Call.Delete result
            ((ToPrimaryQueryParamsFromMetaValue pr res (some mvs) context w).1.1 ::
              (ToPrimaryQueryParamsFromMetaValue pr res (some mvs) context w).1.2)] }) := by
  have h := findOneHandler_meta_eq pr res result mvs context w field m hread hfield hm
  simp only [hd, hdelete, and_true, if_pos hmark] at h
  exact h

/-- The amended C3 on the key `id`: marker "1" leads to the delete and the skip sentinel. -/
theorem findOneHandler_destroy_deletes_witness :
    findOneHandler exPrinter exSingle 5
        (some (exMeta [("ID", "7"), ("_destroy", "1")])) exContext exWorld =
      (some Error.ErrProcessorSkipLeft,
       { state := 1
         calls := [Call.NewScopeOfValue, Call.Delete 5 ["[users].[id] = ?", "7"]] }) :=
  findOneHandler_destroy_deletes exPrinter exSingle 5
    (exMeta [("ID", "7"), ("_destroy", "1")]) exContext exWorld ⟨"ID", "id"⟩
    ⟨"ID", "7"⟩ ⟨"_destroy", "1"⟩ (by decide) (by decide) (by decide) (by decide)
    (by decide) (by decide)

/-- C3 as stated fails: read and delete are granted and the non-nil meta-values hold
"_destroy" = "1", but no declared primary-key field, so the predicate is empty;
`findOneHandler` then deletes nothing and returns the error "failed to find", not
`ErrProcessorSkipLeft`. -/
theorem findOneHandler_destroy_without_key :
    exSingle.HasPermission PermissionMode.Read exContext = true
      ∧ exSingle.HasPermission PermissionMode.Delete exContext = true
      ∧ (exMeta [("_destroy", "1")]).Get "_destroy" = some ⟨"_destroy", "1"⟩
      ∧ exPrinter.Sprint "1" ≠ "0"
      ∧ (findOneHandler exPrinter exSingle 5 (some (exMeta [("_destroy", "1")]))
          exContext exWorld).1 = some (Error.New "failed to find")
      ∧ (findOneHandler exPrinter exSingle 5 (some (exMeta [("_destroy", "1")]))
          exContext exWorld).1 ≠ some Error.ErrProcessorSkipLeft
      ∧ (findOneHandler exPrinter exSingle 5 (some (exMeta [("_destroy", "1")]))
          exContext exWorld).2.calls = [Call.NewScopeOfValue]
      ∧ (findOneHandler exPrinter exSingle 5 (some (exMeta [("_destroy", "1")]))
          exContext exWorld).2.state = 0 := by
  decide

/-- C9: `deleteHandler` returns `gorm.ErrRecordNotFound` when delete permission is granted
and `roles.ErrPermissionDenied` when it is not; it never returns nil and leaves the world as
it was (no store operation). -/
theorem deleteHandler_sentinel (res : Resource σ R) (result : R) (context : Context σ R)
    (w : World σ R) :
    (deleteHandler res result context w).1 =
        some (if res.HasPermission PermissionMode.Delete context
          then Error.ErrRecordNotFound else Error.ErrPermissionDenied)
      ∧ (deleteHandler res result context w).1 ≠ none
      ∧ (deleteHandler res result context w).2 = w := by
  unfold deleteHandler
  cases res.HasPermission PermissionMode.Delete context <;> simp

/-- The value of `saveHandler`: after creating the scope of the record it saves, and
returns the error of `Save`, exactly when (the primary key is zero and create is granted)
or update is granted; otherwise it returns `roles.ErrPermissionDenied` without saving. -/
theorem saveHandler_eq (res : Resource σ R) (result : R) (context : Context σ R)
    (w : World σ R) :
    saveHandler res result context w =
      if (context.DB.PrimaryKeyZero w.state result = true ∧
            res.HasPermission PermissionMode.Create context = true) ∨
          res.HasPermission PermissionMode.Update context = true then
        ((context.DB.Save w.state result).2,
         { state := (context.DB.Save w.state result).1
           calls := w.calls ++ [Call.NewScopeOfResult result, Call.Save result] })
      else
        (some Error.ErrPermissionDenied,
         { state := w.state, calls := w.calls ++ [Call.NewScopeOfResult result] }) := by
  unfold saveHandler
  simp only [World.run, World.record, Bool.or_eq_true, Bool.and_eq_true, List.append_assoc,
    List.singleton_append]

/-- C2, as amended: `saveHandler` persists the record (calls `Save` and returns the error
of `Save`) exactly when (the primary key is zero and create permission is granted) or
update permission is granted; in every other case it returns `roles.ErrPermissionDenied`
without calling `Save`. -/
theorem saveHandler_gate (res : Resource σ R) (result : R) (context : Context σ R)
    (w : World σ R) :
    ((context.DB.PrimaryKeyZero w.state result = true ∧
          res.HasPermission PermissionMode.Create context = true) ∨
        res.HasPermission PermissionMode.Update context = true →
      saveHandler res result context w =
        ((context.DB.Save w.state result).2,
         { state := (context.DB.Save w.state result).1
           calls := w.calls ++ [Call.NewScopeOfResult result, Call.Save result] }))
    ∧ (¬ ((context.DB.PrimaryKeyZero w.state result = true ∧
          res.HasPermission PermissionMode.Create context = true) ∨
        res.HasPermission PermissionMode.Update context = true) →
      saveHandler res result context w =
        (some Error.ErrPermissionDenied,
         { state := w.state, calls := w.calls ++ [Call.NewScopeOfResult result] })) := by
  constructor
  · intro h
    rw [saveHandler_eq, if_pos h]
  · intro h
    rw [saveHandler_eq, if_neg h]

/-- The amended C2 on a role that may only create: a new record (key 0) is saved, an
existing one (key 7) is refused without a `Save`. -/
theorem saveHandler_gate_witness :
    saveHandler exCreateOnly 0 exContext exWorld =
        (none, { state := 1, calls := [Call.NewScopeOfResult 0, Call.Save 0] })
      ∧ saveHandler exCreateOnly 7 exContext exWorld =
        (some Error.ErrPermissionDenied,
         { state := 0, calls := [Call.NewScopeOfResult 7] }) :=
  ⟨(saveHandler_gate exCreateOnly 0 exContext exWorld).1 (Or.inl ⟨by decide, by decide⟩),
   (saveHandler_gate exCreateOnly 7 exContext exWorld).2 (by decide)⟩

/-- C2 as stated fails: a record whose primary key is zero, create denied, update
granted. `saveHandler` calls `Save` and returns its (nil) error instead of
`roles.ErrPermissionDenied`. -/
theorem saveHandler_update_only_saves_new_record :
    exContext.DB.PrimaryKeyZero exWorld.state 0 = true
      ∧ exUpdateOnly.HasPermission PermissionMode.Create exContext = false
      ∧ exUpdateOnly.HasPermission PermissionMode.Update exContext = true
      ∧ (saveHandler exUpdateOnly 0 exContext exWorld).1 = none
      ∧ (saveHandler exUpdateOnly 0 exContext exWorld).1 ≠ some Error.ErrPermissionDenied
      ∧ (saveHandler exUpdateOnly 0 exContext exWorld).2.calls =
          [Call.NewScopeOfResult 0, Call.Save 0]
      ∧ (saveHandler exUpdateOnly 0 exContext exWorld).2.state = 1 := by
  decide

/-- The value of `findManyHandler`: with read granted it returns the error of `Count` when
the handle carries the total-count flag and the error of the ordered `Find` otherwise;
with read denied it returns `roles.ErrPermissionDenied` and calls nothing. -/
theorem findManyHandler_eq (res : Resource σ R) (result : R) (context : Context σ R)
    (w : World σ R) :
    findManyHandler res result context w =
      if res.HasPermission PermissionMode.Read context = true then
        if context.DB.Get "qor:getting_total_count" = true then
          ((context.DB.Count w.state result).2,
           { state := (context.DB.Count w.state result).1
             calls := w.calls ++ [Call.Count result] })
        else
          ((context.DB.Find w.state "gorm:order_by_primary_key" "DESC" result).2,
           { state := (context.DB.Find w.state "gorm:order_by_primary_key" "DESC" result).1
             calls := w.calls ++ [Call.Find "gorm:order_by_primary_key" "DESC" result] })
      else (some Error.ErrPermissionDenied, w) := by
  unfold findManyHandler
  simp only [World.run]

/-- The errors of `First`, `Count`, `Find` and `Save` are returned as they are: on each
path that ends in one of these calls (the fetch of `findOneHandler` on meta-values holding
a key field and no effective destroy marker, the two branches of `findManyHandler`, the
permitted branch of `saveHandler`) the handler's result is that call's error. -/
theorem store_error_returned (pr : Printer V) (res : Resource σ R) (result : R)
    (mvs : MetaValues V) (context : Context σ R) (w : World σ R) (field : Field)
    (m : MetaValue V)
    (hread : res.HasPermission PermissionMode.Read context = true)
    (hfield : field ∈ res.PrimaryFields) (hm : mvs.Get field.Name = some m)
    (hfetch : ∀ destroy, mvs.Get "_destroy" = some destroy →
      ¬ (pr.Sprint destroy.Value ≠ "0" ∧ res.HasPermission PermissionMode.Delete context)) :
    (findOneHandler pr res result (some mvs) context w).1 =
        (context.DB.First w.state result
          ((ToPrimaryQueryParamsFromMetaValue pr res (some mvs) context w).1.1 ::
            (ToPrimaryQueryParamsFromMetaValue pr res (some mvs) context w).1.2)).2
      ∧ (res.HasPermission PermissionMode.Read context = true →
          context.DB.Get "qor:getting_total_count" = true →
          (findManyHandler res result context w).1 = (context.DB.Count w.state result).2)
      ∧ (res.HasPermission PermissionMode.Read context = true →
          context.DB.Get "qor:getting_total_count" = false →
          (findManyHandler res result context w).1 =
            (context.DB.Find w.state "gorm:order_by_primary_key" "DESC" result).2)
      ∧ ((context.DB.PrimaryKeyZero w.state result = true ∧
            res.HasPermission PermissionMode.Create context = true) ∨
          res.HasPermission PermissionMode.Update context = true →
          (saveHandler res result context w).1 = (context.DB.Save w.state result).2) := by
  refine ⟨?_, ?_, ?_, ?_⟩
  · rw [findOneHandler_meta_eq pr res result mvs context w field m hread hfield hm]
    cases hd : mvs.Get "_destroy" with
    | none => rfl
    | some destroy =>
      have hno := hfetch destroy hd
      simp only [if_neg hno]
  · intro h1 h2
    rw [findManyHandler_eq, if_pos h1, if_pos h2]
  · intro h1 h2
    rw [findManyHandler_eq, if_pos h1, if_neg (by simp [h2])]
  · intro h
    rw [saveHandler_eq, if_pos h]

/-- C4 at the failing input: read and delete granted, meta-values holding the key and
"_destroy" = "1", and a store whose `Delete` fails with a driver error. `findOneHandler`
calls `Delete` and returns `ErrProcessorSkipLeft`, not the error that `Delete` yielded. -/
theorem findOneHandler_drops_delete_error :
    (exContext.DB.Delete exWorld.state 5 ["[users].[id] = ?", "7"]).2 =
        some (Error.Driver "locked")
      ∧ (findOneHandler exPrinter exSingle 5
          (some (exMeta [("ID", "7"), ("_destroy", "1")])) exContext exWorld).2.calls =
          [Call.NewScopeOfValue, Call.Delete 5 ["[users].[id] = ?", "7"]]
      ∧ (findOneHandler exPrinter exSingle 5
          (some (exMeta [("ID", "7"), ("_destroy", "1")])) exContext exWorld).1 =
          some Error.ErrProcessorSkipLeft
      ∧ (findOneHandler exPrinter exSingle 5
          (some (exMeta [("ID", "7"), ("_destroy", "1")])) exContext exWorld).1 ≠
          (exContext.DB.Delete exWorld.state 5 ["[users].[id] = ?", "7"]).2 := by
  decide

end resource
